import Mathlib

/-!
Shallow embedding of the BTC z-score backtest system (src/script.js) over ℚ.

JS `number` values are modelled by `ℚ`; the JS `null`/`NaN` markers used for
"no value yet" (z-score before a full window, NaN Sharpe/Calmar) are modelled
by `Option ℚ`.  `Math.sqrt` is not rational-valued, so every definition that
uses it is parametrised by a function `sqrtQ : ℚ → ℚ` standing for the square
root; theorems that need a property of the square root (such as `sqrtQ 0 = 0`)
take it as an explicit hypothesis.  Timestamps (milliseconds) are `ℤ`.

Division on `ℚ` is total (`q / 0 = 0`), whereas in JS a division by zero
yields `Infinity`/`NaN`; in this code base a zero divisor can only come from a
zero close price (impossible for genuine market data), so the theorems about
the backtest pipeline describe the exact-arithmetic semantics of the code on
real price series.
-/

namespace BtcZscore

/-- Strategy logic selector, JS `logicType ∈ {"trend", "fast"}`. -/
inductive Logic where
  | trend
  | fast
deriving DecidableEq

/-- Strategy side selector, JS `side ∈ {"long", "short", "both"}`. -/
inductive Side where
  | long
  | short
  | both
deriving DecidableEq

/-- An input price bar: `{time, close}` as produced by the data fetcher. -/
structure Bar where
  time : ℤ
  close : ℚ
deriving DecidableEq

/-- Output of `BacktestEngine.calculateZScore`: the bar enriched with
`mean`/`std`/`zscore`, which are `null` for the first `window - 1` bars. -/
structure ScoredBar where
  time : ℤ
  close : ℚ
  mean : Option ℚ
  std : Option ℚ
  zscore : Option ℚ
deriving DecidableEq

/-- Output of `BacktestEngine.generateSignals`: scored bar plus the
forward-filled position `pos`. -/
structure PositionedBar where
  time : ℤ
  close : ℚ
  mean : Option ℚ
  std : Option ℚ
  zscore : Option ℚ
  pos : ℤ
deriving DecidableEq

/-- Output of `BacktestEngine.backtest`: one fully simulated bar. -/
structure SimBar where
  time : ℤ
  close : ℚ
  mean : Option ℚ
  std : Option ℚ
  zscore : Option ℚ
  pos : ℤ
  priceChange : ℚ
  posPrev : ℤ
  trades : ℤ
  pnl : ℚ
  cumulativePnl : ℚ
  drawdown : ℚ
deriving DecidableEq

/-- Default `Bar` used only as the out-of-range value of `List.getD`. -/
def barDflt : Bar := ⟨0, 0⟩

/-- Default `ScoredBar` for `List.getD`. -/
def sbDflt : ScoredBar := ⟨0, 0, Option.none, Option.none, Option.none⟩

/-- Default `PositionedBar` for `List.getD`. -/
def pbDflt : PositionedBar := ⟨0, 0, Option.none, Option.none, Option.none, 0⟩

/-- Default `SimBar` for `List.getD`. -/
def simDflt : SimBar :=
  ⟨0, 0, Option.none, Option.none, Option.none, 0, 0, 0, 0, 0, 0, 0⟩

/-- `BacktestEngine.calculateZScore(data, window)`.  For `index < window - 1`
the statistics are `null`; otherwise the mean and population variance
(denominator `window`) of the closes `data.slice(index - window + 1, index + 1)`
are computed, `std = sqrtQ variance` stands for `Math.sqrt(variance)`, and
`zscore = std !== 0 ? (close - mean) / std : 0`. -/
def calculateZScore (sqrtQ : ℚ → ℚ) (data : List Bar) (window : ℕ) :
    List ScoredBar :=
  (List.range data.length).map fun index =>
    let item := data.getD index barDflt
    if index < window - 1 then
      ⟨item.time, item.close, Option.none, Option.none, Option.none⟩
    else
      let windowData := ((data.drop (index + 1 - window)).take window).map Bar.close
      let mean := windowData.sum / (window : ℚ)
      let variance := (windowData.map fun val => (val - mean) ^ 2).sum / (window : ℚ)
      let std := sqrtQ variance
      let zscore := if std ≠ 0 then (item.close - mean) / std else 0
      ⟨item.time, item.close, some mean, some std, some zscore⟩

/-- The raw (pre-forward-fill) position entry that the first pass of
`generateSignals` stores for a bar with a non-null z-score `z`.
`Option.none` models the `NaN` left in the `position` array.  Each branch
mirrors the two sequential `if` statements of the JS code, so the second
assignment overwrites the first when both conditions hold. -/
def rawPos (logicType : Logic) (side : Side) (entryThreshold exitThreshold : ℚ)
    (z : ℚ) : Option ℤ :=
  match logicType, side with
  | .trend, .long =>
    let p : Option ℤ := if entryThreshold ≤ z then some 1 else Option.none
    if z ≤ exitThreshold then some 0 else p
  | .trend, .short =>
    let p : Option ℤ := if entryThreshold ≤ z then some 0 else Option.none
    if z ≤ exitThreshold then some (-1) else p
  | .trend, .both =>
    let p : Option ℤ := if entryThreshold ≤ z then some 1 else Option.none
    if z ≤ exitThreshold then some (-1) else p
  | .fast, .long => some (if entryThreshold ≤ z then 1 else 0)
  | .fast, .short => some (if z ≤ exitThreshold then -1 else 0)
  | .fast, .both =>
    let p : Option ℤ := if entryThreshold ≤ z then some 1 else Option.none
    if z ≤ exitThreshold then some (-1) else p

/-- The `position` array after the first pass of `generateSignals`:
bars with `null` z-score are skipped (stay `NaN`), the rest get `rawPos`. -/
def rawSignals (scored : List ScoredBar) (entryThreshold exitThreshold : ℚ)
    (logicType : Logic) (side : Side) : List (Option ℤ) :=
  scored.map fun b =>
    match b.zscore with
    | Option.none => Option.none
    | some z => rawPos logicType side entryThreshold exitThreshold z

/-- The forward-fill loop of `generateSignals`: `lastPosition` starts at 0;
a `NaN` entry is replaced by `lastPosition`, a set entry updates it. -/
def ffill (lastPosition : ℤ) : List (Option ℤ) → List ℤ
  | [] => []
  | x :: rest =>
    let v := x.getD lastPosition
    v :: ffill v rest

/-- The final `position` array of `generateSignals` (first pass + forward fill). -/
def signalPositions (scored : List ScoredBar) (entryThreshold exitThreshold : ℚ)
    (logicType : Logic) (side : Side) : List ℤ :=
  ffill 0 (rawSignals scored entryThreshold exitThreshold logicType side)

/-- `BacktestEngine.generateSignals`: each scored bar paired with its
forward-filled position. -/
def generateSignals (scored : List ScoredBar) (entryThreshold exitThreshold : ℚ)
    (logicType : Logic) (side : Side) : List PositionedBar :=
  List.zipWith (fun b p => ⟨b.time, b.close, b.mean, b.std, b.zscore, p⟩)
    scored (signalPositions scored entryThreshold exitThreshold logicType side)

/-- `df[index - 1].pos` with the JS convention `posPrev = 0` at index 0. -/
def posPrevAt (df : List PositionedBar) (i : ℕ) : ℤ :=
  if i = 0 then 0 else (df.getD (i - 1) pbDflt).pos

/-- `priceChange`: 0 at index 0, else `(close[i] - close[i-1]) / close[i-1]`. -/
def priceChangeAt (df : List PositionedBar) (i : ℕ) : ℚ :=
  if i = 0 then 0
  else ((df.getD i pbDflt).close - (df.getD (i - 1) pbDflt).close) /
    (df.getD (i - 1) pbDflt).close

/-- `pnl = posPrev * priceChange` (no fees). -/
def pnlAt (df : List PositionedBar) (i : ℕ) : ℚ :=
  (posPrevAt df i : ℚ) * priceChangeAt df i

/-- The running-sum pass `cumulativePnl += pnl` of `backtest`. -/
def scanSum (acc : ℚ) : List ℚ → List ℚ
  | [] => []
  | x :: xs => (acc + x) :: scanSum (acc + x) xs

/-- The drawdown pass of `backtest`: `maxCumulativePnl` starts at 0, is raised
to each new cumulative PnL, and `drawdown = cumulativePnl - maxCumulativePnl`. -/
def scanDD (peak : ℚ) : List ℚ → List ℚ
  | [] => []
  | c :: cs => (c - max peak c) :: scanDD (max peak c) cs

/-- Running maximum of a list of cumulative PnLs, seeded at `peak`. -/
def runPeak (peak : ℚ) (cs : List ℚ) : ℚ := cs.foldl max peak

/-- `BacktestEngine.backtest`: z-scores, signals, then the per-bar price
change, previous position, trades, pnl, cumulative pnl and drawdown passes. -/
def backtest (sqrtQ : ℚ → ℚ) (data : List Bar) (window : ℕ)
    (entryThreshold exitThreshold : ℚ) (logicType : Logic) (side : Side) :
    List SimBar :=
  let df := generateSignals (calculateZScore sqrtQ data window)
    entryThreshold exitThreshold logicType side
  let n := df.length
  let pnlList := (List.range n).map fun i => pnlAt df i
  let cums := scanSum 0 pnlList
  let dds := scanDD 0 cums
  (List.range n).map fun i =>
    let b := df.getD i pbDflt
    ⟨b.time, b.close, b.mean, b.std, b.zscore, b.pos,
      priceChangeAt df i, posPrevAt df i, |posPrevAt df i - b.pos|,
      pnlAt df i, cums.getD i 0, dds.getD i 0⟩

/-- `Math.min(...)` over a list; the empty case is unreachable in the code
paths modelled here (the caller checks non-emptiness first). -/
def listMin : List ℚ → ℚ
  | [] => 0
  | x :: xs => xs.foldl min x

/-- `Number(x.toFixed(4))`: round to 4 decimal places. -/
def round4 (x : ℚ) : ℚ := (round (x * 10000) : ℚ) / 10000

/-- `Number(x.toFixed(2))`: round to 2 decimal places. -/
def round2 (x : ℚ) : ℚ := (round (x * 100) : ℚ) / 100

/-- The metrics record returned by `MetricsCalculator.calculateAllMetrics`.
`Option.none` in `sharpe`/`calmar` models `NaN`; `Option.none` in
`startDate`/`endDate` models the string `"N/A"` (a `some t` stands for the
rendered date of instant `t`). -/
structure Metrics where
  sharpe : Option ℚ
  calmar : Option ℚ
  maxDrawdown : ℚ
  annualizedReturn : ℚ
  totalReturn : ℚ
  numTrades : ℤ
  tradeFrequency : ℚ
  winRate : ℚ
  startDate : Option ℤ
  endDate : Option ℤ
  periodDays : ℤ
deriving DecidableEq

/-- `MetricsCalculator.emptyMetrics()`. -/
def emptyMetrics : Metrics :=
  ⟨Option.none, Option.none, 0, 0, 0, 0, 0, 0, Option.none, Option.none, 0⟩

/-- The index-collecting loop of `calculateWinRate`: record every index whose
previous position (`prevPos`, initially 0) is non-zero while the current
position is 0. -/
def tradeEndsAux (prevPos : ℤ) (i : ℕ) : List SimBar → List ℕ
  | [] => []
  | b :: rest =>
    if prevPos ≠ 0 ∧ b.pos = 0 then i :: tradeEndsAux b.pos (i + 1) rest
    else tradeEndsAux b.pos (i + 1) rest

/-- The backward scan of `calculateWinRate`: starting from `startIdx = j`,
decrement while `df[startIdx].pos === endPos`, then increment once. -/
def runStart (df : List SimBar) (endPos : ℤ) : ℕ → ℕ
  | 0 => if (df.getD 0 simDflt).pos = endPos then 0 else 1
  | j + 1 =>
    if (df.getD (j + 1) simDflt).pos = endPos then runStart df endPos j
    else j + 2

/-- `MetricsCalculator.calculateWinRate(df)`. -/
def calculateWinRate (df : List SimBar) : ℚ :=
  let tradeEnds := tradeEndsAux 0 0 df
  if tradeEnds.length = 0 then 0
  else
    let winningTrades := (tradeEnds.filter fun endIdx =>
      let endPos := (df.getD (endIdx - 1) simDflt).pos
      let startIdx := runStart df endPos (endIdx - 1)
      decide (startIdx < endIdx ∧
        0 < (df.getD endIdx simDflt).cumulativePnl -
          (df.getD startIdx simDflt).cumulativePnl)).length
    (winningTrades : ℚ) / (tradeEnds.length : ℚ) * 100

/-- `MetricsCalculator.calculateAllMetrics(df, window)` with the per-interval
`annualizer` constant as a parameter (e.g. `365 * 24` for `"1h"`).
The JS filter keeping only bars with a non-`null`/non-`NaN` `pnl` keeps every
bar here, since `SimBar.pnl` is a total rational value. -/
def calculateAllMetrics (sqrtQ : ℚ → ℚ) (annualizer : ℚ) (df : List SimBar)
    (window : ℕ) : Metrics :=
  let validDf := df
  if validDf.length = 0 then emptyMetrics
  else
    let pnl := validDf.map SimBar.pnl
    let trades := (validDf.map SimBar.trades).sum
    let meanPnl := pnl.sum / (pnl.length : ℚ)
    let variance := (pnl.map fun val => (val - meanPnl) ^ 2).sum / (pnl.length : ℚ)
    let stdPnl := sqrtQ variance
    let sharpe : Option ℚ :=
      if 1 < pnl.length ∧ stdPnl ≠ 0 then some ((meanPnl / stdPnl) * sqrtQ annualizer)
      else Option.none
    let maxDrawdown := listMin (validDf.map SimBar.drawdown)
    let annualizedReturn := if 0 < pnl.length then meanPnl * annualizer else 0
    let calmar : Option ℚ :=
      if maxDrawdown ≠ 0 then some (annualizedReturn / |maxDrawdown|)
      else Option.none
    let totalReturn := (validDf.getD (validDf.length - 1) simDflt).cumulativePnl
    let numTrades : ℤ := trades
    let effectivePeriods : ℤ := (validDf.length : ℤ) - (window : ℤ)
    let tradeFrequency :=
      if 0 < effectivePeriods then (numTrades : ℚ) / (effectivePeriods : ℚ) * 100
      else 0
    let winRate := calculateWinRate validDf
    let startT := (validDf.getD 0 simDflt).time
    let endT := (validDf.getD (validDf.length - 1) simDflt).time
    let periodDays := Int.fdiv (endT - startT) 86400000
    ⟨(sharpe.map round4), (calmar.map round4), round4 maxDrawdown,
      round4 annualizedReturn, round4 totalReturn, numTrades,
      round4 tradeFrequency, round2 winRate, some startT, some endT, periodDays⟩

/-- Which of the four evaluator checks a reason line belongs to.  The JS code
pushes human-readable strings; only the pass/fail flag and the check identity
are modelled. -/
inductive Check where
  | sharpe
  | calmar
  | maxDD
  | trades
deriving DecidableEq

/-- The Sharpe check `!isNaN(sharpe) && sharpe >= minSharpe`. -/
def checkSharpe (minSharpe : ℚ) (m : Metrics) : Bool :=
  match m.sharpe with
  | some s => decide (minSharpe ≤ s)
  | Option.none => false

/-- The Calmar check `!isNaN(calmar) && calmar >= minCalmar`. -/
def checkCalmar (minCalmar : ℚ) (m : Metrics) : Bool :=
  match m.calmar with
  | some c => decide (minCalmar ≤ c)
  | Option.none => false

/-- The max-drawdown check `mdd >= maxDrawdownThreshold`. -/
def checkMdd (mddFloor : ℚ) (m : Metrics) : Bool :=
  decide (mddFloor ≤ m.maxDrawdown)

/-- The trade-count check `numTrades >= minTrades`. -/
def checkTradeCount (minTrades : ℤ) (m : Metrics) : Bool :=
  decide (minTrades ≤ m.numTrades)

/-- `StrategyEvaluator.evaluate(metrics)` with thresholds
`(minSharpe, minCalmar, mddFloor, minTrades)`; defaults are
`(1.0, 1.0, -0.3, 10)`.  A `NaN` (here `Option.none`) Sharpe or Calmar fails
its check via the `!isNaN(...)` guard; returns
`(recommended, reason lines in fixed order)`. -/
def evaluate (minSharpe minCalmar mddFloor : ℚ) (minTrades : ℤ) (m : Metrics) :
    Bool × List (Bool × Check) :=
  let c1 := checkSharpe minSharpe m
  let c2 := checkCalmar minCalmar m
  let c3 := checkMdd mddFloor m
  let c4 := checkTradeCount minTrades m
  let passedChecks :=
    (if c1 then 1 else 0) + (if c2 then 1 else 0) +
    (if c3 then 1 else 0) + (if c4 then 1 else 0)
  (decide (passedChecks = 4),
    [(c1, Check.sharpe), (c2, Check.calmar), (c3, Check.maxDD), (c4, Check.trades)])

/-- Live position state, JS `currentPosition ∈ {"long", "short", "none"}`. -/
inductive LivePos where
  | long
  | short
  | none
deriving DecidableEq

/-- The `signalType` values of `checkTradingSignal`. -/
inductive SignalKind where
  | entryLong
  | entryShort
  | exitLong
  | exitShort
deriving DecidableEq

/-- Map a live position to the batch position encoding. -/
def toIntPos : LivePos → ℤ
  | .long => 1
  | .short => -1
  | .none => 0

/-- The four ordered fast-mode sub-rules of `checkTradingSignal`
(lines 1396-1438), threading `(nextPosition, signalType)` exactly as the
sequential JS statements do; the trailing reset restores `currentPosition`
when no rule fired and `nextPosition` is `"none"`. -/
def liveFast (side : Side) (entryThreshold exitThreshold z : ℚ)
    (currentPosition : LivePos) : LivePos × Option SignalKind :=
  let p1 : LivePos × Option SignalKind :=
    if (side = Side.short ∨ side = Side.both) ∧ currentPosition = LivePos.short ∧
        exitThreshold < z then
      (LivePos.none, some SignalKind.exitShort)
    else (currentPosition, Option.none)
  let p2 : LivePos × Option SignalKind :=
    if (side = Side.long ∨ side = Side.both) ∧ currentPosition = LivePos.long ∧
        z < entryThreshold then
      (LivePos.none,
        match p1.2 with
        | some s => some s
        | Option.none => some SignalKind.exitLong)
    else p1
  let p3 : LivePos × Option SignalKind :=
    if (side = Side.long ∨ side = Side.both) ∧ p2.1 = LivePos.none ∧
        entryThreshold < z then
      (LivePos.long, some SignalKind.entryLong)
    else p2
  let p4 : LivePos × Option SignalKind :=
    if (side = Side.short ∨ side = Side.both) ∧ p3.1 = LivePos.none ∧
        z < exitThreshold then
      (LivePos.short, some SignalKind.entryShort)
    else p3
  if p4.2 = Option.none ∧ p4.1 = LivePos.none then (currentPosition, p4.2)
  else p4

/-- The live decision rule of `checkTradingSignal` (lines 1381-1438): the new
`nextPosition` as a function of the freshly computed z-score and the current
position.  Note the strict comparisons (`>` and `<` in the JS source) and the
stateless single-sided trend branches. -/
def liveTransition (logicType : Logic) (side : Side)
    (entryThreshold exitThreshold z : ℚ) (currentPosition : LivePos) : LivePos :=
  match logicType with
  | .trend =>
    match side with
    | .long => if entryThreshold < z then LivePos.long else LivePos.none
    | .short => if z < exitThreshold then LivePos.short else LivePos.none
    | .both =>
      if entryThreshold < z then LivePos.long
      else if z < exitThreshold then LivePos.short
      else currentPosition
  | .fast => (liveFast side entryThreshold exitThreshold z currentPosition).1

/-- The batch decision for one bar: the raw signal if defined, otherwise the
previous emitted position (this is what the forward-fill of `generateSignals`
produces bar by bar, see `signalPositions_step`). -/
def batchNextPos (logicType : Logic) (side : Side)
    (entryThreshold exitThreshold : ℚ) (oz : Option ℚ) (prev : ℤ) : ℤ :=
  match oz with
  | Option.none => prev
  | some z => (rawPos logicType side entryThreshold exitThreshold z).getD prev

/-- The module-level live monitoring state of the script
(`lastHourlyTimestamp`, `currentPosition`). -/
structure LiveState where
  lastHourlyTimestamp : Option ℤ
  currentPosition : LivePos
deriving DecidableEq

/-- The environment one `checkTradingSignal` tick runs in: the form
parameters, whether Telegram credentials are present, the last completed
hourly candle time, and the outcome of `fetchRecentData`
(`Option.none` models a thrown fetch error, caught by the tick's `catch`). -/
structure TickEnv where
  logicType : Logic
  side : Side
  window : ℕ
  entryThreshold : ℚ
  exitThreshold : ℚ
  hasCreds : Bool
  currentHourlyTimestamp : ℤ
  fetchResult : Option (List Bar)
deriving DecidableEq

/-- How a tick ended, summarising its externally visible effects. -/
inductive TickOut where
  | noCreds
  | noNewBar
  | fetchFailed
  | notEnoughData
  | zscoreFailed
  | processed (delivered : Bool)
deriving DecidableEq

/-- One tick of `checkTradingSignal` (lines 1272-1503) as a state transformer.
`sendOk` is the delivery outcome of the hourly Telegram notification; the
state fields are committed (lines 1349 and 1470) before the send is attempted,
so `sendOk` only shows up in the `TickOut`. -/
def checkTradingSignal (sqrtQ : ℚ → ℚ) (env : TickEnv) (sendOk : Bool)
    (st : LiveState) : LiveState × TickOut :=
  if env.hasCreds = false then (st, TickOut.noCreds)
  else
    let hasNewHourlyCandle :=
      match st.lastHourlyTimestamp with
      | Option.none => true
      | some t => decide (t < env.currentHourlyTimestamp)
    if ¬hasNewHourlyCandle = true ∧ st.lastHourlyTimestamp ≠ Option.none then
      (st, TickOut.noNewBar)
    else
      match env.fetchResult with
      | Option.none => (st, TickOut.fetchFailed)
      | some recentData =>
        if recentData.length < env.window then (st, TickOut.notEnoughData)
        else
          let zscoreData := calculateZScore sqrtQ recentData env.window
          match zscoreData.getLast? with
          | Option.none => (st, TickOut.zscoreFailed)
          | some lastData =>
            match lastData.zscore with
            | Option.none => (st, TickOut.zscoreFailed)
            | some currentZScore =>
              let nextPosition := liveTransition env.logicType env.side
                env.entryThreshold env.exitThreshold currentZScore
                st.currentPosition
              (⟨some env.currentHourlyTimestamp, nextPosition⟩,
                TickOut.processed sendOk)

/-! ### Index and length helper lemmas -/

lemma getD_range_map {α : Type} (g : ℕ → α) (d : α) {n i : ℕ} (h : i < n) :
    ((List.range n).map g).getD i d = g i := by
  rw [List.getD_eq_getElem?_getD, List.getElem?_map, List.getElem?_range h]
  rfl

lemma getD_eq_of_lt {α : Type} (l : List α) (d : α) {i : ℕ} (h : i < l.length) :
    l.getD i d = l[i] := List.getD_eq_getElem l d h

lemma mem_of_getD {α : Type} (l : List α) (d : α) {i : ℕ} (h : i < l.length) :
    l.getD i d ∈ l := by
  rw [getD_eq_of_lt l d h]
  exact List.getElem_mem h

lemma getD_take {α : Type} (l : List α) (d : α) {i n : ℕ} (h : i < n) :
    (l.take n).getD i d = l.getD i d := by
  rw [List.getD_eq_getElem?_getD, List.getD_eq_getElem?_getD, List.getElem?_take]
  simp [h]

lemma length_calculateZScore (sqrtQ : ℚ → ℚ) (data : List Bar) (window : ℕ) :
    (calculateZScore sqrtQ data window).length = data.length := by
  simp [calculateZScore]

lemma length_ffill (a : ℤ) (xs : List (Option ℤ)) :
    (ffill a xs).length = xs.length := by
  induction xs generalizing a with
  | nil => rfl
  | cons x xs ih => simp [ffill, ih]

lemma length_rawSignals (scored : List ScoredBar) (e x : ℚ) (l : Logic) (s : Side) :
    (rawSignals scored e x l s).length = scored.length := by
  simp [rawSignals]

lemma length_signalPositions (scored : List ScoredBar) (e x : ℚ) (l : Logic)
    (s : Side) : (signalPositions scored e x l s).length = scored.length := by
  simp [signalPositions, length_ffill, length_rawSignals]

lemma length_generateSignals (scored : List ScoredBar) (e x : ℚ) (l : Logic)
    (s : Side) : (generateSignals scored e x l s).length = scored.length := by
  simp [generateSignals, length_signalPositions]

lemma length_backtest (sqrtQ : ℚ → ℚ) (data : List Bar) (w : ℕ) (e x : ℚ)
    (l : Logic) (s : Side) : (backtest sqrtQ data w e x l s).length = data.length := by
  simp [backtest, length_generateSignals, length_calculateZScore]

lemma rawSignals_getD (scored : List ScoredBar) (e x : ℚ) (l : Logic) (s : Side)
    {i : ℕ} (h : i < scored.length) :
    (rawSignals scored e x l s).getD i Option.none =
      match (scored.getD i sbDflt).zscore with
      | Option.none => Option.none
      | some z => rawPos l s e x z := by
  have h2 : i < (rawSignals scored e x l s).length := by
    rwa [length_rawSignals]
  rw [getD_eq_of_lt _ _ h2, getD_eq_of_lt _ _ h]
  simp [rawSignals]

lemma generateSignals_getD (scored : List ScoredBar) (e x : ℚ) (l : Logic)
    (s : Side) {i : ℕ} (h : i < scored.length) :
    (generateSignals scored e x l s).getD i pbDflt =
      ⟨(scored.getD i sbDflt).time, (scored.getD i sbDflt).close,
        (scored.getD i sbDflt).mean, (scored.getD i sbDflt).std,
        (scored.getD i sbDflt).zscore,
        (signalPositions scored e x l s).getD i 0⟩ := by
  have h2 : i < (generateSignals scored e x l s).length := by
    rwa [length_generateSignals]
  have h3 : i < (signalPositions scored e x l s).length := by
    rwa [length_signalPositions]
  rw [getD_eq_of_lt _ _ h2, getD_eq_of_lt _ _ h, getD_eq_of_lt _ _ h3]
  simp [generateSignals]

/-! ### Forward fill -/

lemma ffill_getD_step (xs : List (Option ℤ)) (a : ℤ) {i : ℕ} (h : i < xs.length) :
    (ffill a xs).getD i 0 =
      (xs.getD i Option.none).getD
        (if i = 0 then a else (ffill a xs).getD (i - 1) 0) := by
  induction xs generalizing a i with
  | nil => simp at h
  | cons x xs ih =>
    cases i with
    | zero => simp [ffill]
    | succ j =>
      have hj : j < xs.length := by simpa using h
      cases j with
      | zero => simpa [ffill] using ih (x.getD a) hj
      | succ k => simpa [ffill] using ih (x.getD a) hj

/-- The forward-fill recurrence in terms of the one-bar batch rule:
the emitted position at bar `i` is `batchNextPos` of the bar's z-score and
the previous emitted position (0 at `i = 0`). -/
lemma signalPositions_step (scored : List ScoredBar) (e x : ℚ) (l : Logic)
    (s : Side) {i : ℕ} (h : i < scored.length) :
    (signalPositions scored e x l s).getD i 0 =
      batchNextPos l s e x ((scored.getD i sbDflt).zscore)
        (if i = 0 then 0 else (signalPositions scored e x l s).getD (i - 1) 0) := by
  have h2 : i < (rawSignals scored e x l s).length := by
    rwa [length_rawSignals]
  rw [signalPositions, ffill_getD_step _ _ h2]
  rw [show ffill 0 (rawSignals scored e x l s) = signalPositions scored e x l s from rfl]
  rw [rawSignals_getD scored e x l s h]
  cases hoz : (scored.getD i sbDflt).zscore with
  | none => simp [batchNextPos]
  | some z => simp [batchNextPos]

lemma ffill_forall (P : ℤ → Prop) (a : ℤ) (xs : List (Option ℤ)) (ha : P a)
    (hxs : ∀ o ∈ xs, ∀ v, o = some v → P v) : ∀ y ∈ ffill a xs, P y := by
  induction xs generalizing a with
  | nil => simp [ffill]
  | cons x xs ih =>
    intro y hy
    rw [show ffill a (x :: xs) = x.getD a :: ffill (x.getD a) xs from rfl] at hy
    rcases List.mem_cons.mp hy with hy | hy
    · subst hy
      cases hx : x with
      | none => simpa [hx] using ha
      | some v => simpa [hx] using hxs x (by simp) v hx
    · refine ih (x.getD a) ?_ (fun o ho v hv => hxs o (by simp [ho]) v hv) y hy
      cases hx : x with
      | none => simpa [hx] using ha
      | some v => simpa [hx] using hxs x (by simp) v hx

lemma rawPos_cases (l : Logic) (s : Side) (e x z : ℚ) :
    rawPos l s e x z = Option.none ∨ rawPos l s e x z = some (-1) ∨
      rawPos l s e x z = some 0 ∨ rawPos l s e x z = some 1 := by
  cases l <;> cases s <;> simp only [rawPos] <;> split_ifs <;> simp

lemma signalPositions_mem (scored : List ScoredBar) (e x : ℚ) (l : Logic)
    (s : Side) : ∀ y ∈ signalPositions scored e x l s,
      y = -1 ∨ y = 0 ∨ y = 1 := by
  refine ffill_forall _ 0 _ (by simp) ?_
  intro o ho v hv
  simp only [rawSignals, List.mem_map] at ho
  obtain ⟨b, _, hb⟩ := ho
  cases hz : b.zscore with
  | none => rw [hz] at hb; subst hb; simp at hv
  | some z =>
    rw [hz] at hb
    subst hb
    have hv2 : rawPos l s e x z = some v := hv
    rcases rawPos_cases l s e x z with hc | hc | hc | hc <;> rw [hc] at hv2 <;>
      simp_all

lemma signalPositions_getD_mem (scored : List ScoredBar) (e x : ℚ) (l : Logic)
    (s : Side) {i : ℕ} (h : i < scored.length) :
    (signalPositions scored e x l s).getD i 0 = -1 ∨
      (signalPositions scored e x l s).getD i 0 = 0 ∨
      (signalPositions scored e x l s).getD i 0 = 1 := by
  have h2 : i < (signalPositions scored e x l s).length := by
    rwa [length_signalPositions]
  exact signalPositions_mem scored e x l s _ (mem_of_getD _ _ h2)

/-! ### Running sum, running peak and drawdown -/

lemma length_scanSum (acc : ℚ) (xs : List ℚ) :
    (scanSum acc xs).length = xs.length := by
  induction xs generalizing acc with
  | nil => rfl
  | cons x xs ih => simp [scanSum, ih]

lemma scanSum_getD (xs : List ℚ) (acc : ℚ) {i : ℕ} (h : i < xs.length) :
    (scanSum acc xs).getD i 0 = acc + (xs.take (i + 1)).sum := by
  induction xs generalizing acc i with
  | nil => simp at h
  | cons x xs ih =>
    cases i with
    | zero => simp [scanSum]
    | succ j =>
      have hj : j < xs.length := by simpa using h
      rw [show scanSum acc (x :: xs) = (acc + x) :: scanSum (acc + x) xs from rfl,
        List.getD_cons_succ, ih (acc + x) hj]
      simp [List.sum_cons]
      ring

lemma length_scanDD (peak : ℚ) (cs : List ℚ) :
    (scanDD peak cs).length = cs.length := by
  induction cs generalizing peak with
  | nil => rfl
  | cons c cs ih => simp [scanDD, ih]

lemma scanDD_getD (cs : List ℚ) (peak : ℚ) {i : ℕ} (h : i < cs.length) :
    (scanDD peak cs).getD i 0 = cs.getD i 0 - runPeak peak (cs.take (i + 1)) := by
  induction cs generalizing peak i with
  | nil => simp at h
  | cons c cs ih =>
    cases i with
    | zero => simp [scanDD, runPeak]
    | succ j =>
      have hj : j < cs.length := by simpa using h
      rw [show scanDD peak (c :: cs) = (c - max peak c) :: scanDD (max peak c) cs
        from rfl, List.getD_cons_succ, ih (max peak c) hj]
      simp [runPeak, List.foldl_cons]

lemma le_runPeak (peak : ℚ) (cs : List ℚ) : peak ≤ runPeak peak cs := by
  induction cs generalizing peak with
  | nil => simp [runPeak]
  | cons c cs ih =>
    calc peak ≤ max peak c := le_max_left _ _
    _ ≤ runPeak (max peak c) cs := ih (max peak c)

lemma mem_le_runPeak (peak : ℚ) (cs : List ℚ) : ∀ c ∈ cs, c ≤ runPeak peak cs := by
  induction cs generalizing peak with
  | nil => simp
  | cons c cs ih =>
    intro d hd
    rcases List.mem_cons.mp hd with hd | hd
    · subst hd
      calc d ≤ max peak d := le_max_right _ _
      _ ≤ runPeak (max peak d) cs := le_runPeak _ _
    · exact ih (max peak c) d hd

lemma runPeak_append (peak : ℚ) (as bs : List ℚ) :
    runPeak peak (as ++ bs) = runPeak (runPeak peak as) bs := by
  simp [runPeak, List.foldl_append]

lemma runPeak_take_mono (cs : List ℚ) {i j : ℕ} (hij : i ≤ j) :
    runPeak 0 (cs.take (i + 1)) ≤ runPeak 0 (cs.take (j + 1)) := by
  have hsplit : cs.take (j + 1) = cs.take (i + 1) ++ ((cs.drop (i + 1)).take (j - i)) := by
    rw [← List.take_add]
    congr 1
    omega
  rw [hsplit, runPeak_append]
  exact le_runPeak _ _

lemma getD_le_runPeak_take (cs : List ℚ) {i : ℕ} (h : i < cs.length) :
    cs.getD i 0 ≤ runPeak 0 (cs.take (i + 1)) := by
  have hmem : cs.getD i 0 ∈ cs.take (i + 1) := by
    rw [← getD_take cs 0 (Nat.lt_succ_self i)]
    refine mem_of_getD _ _ ?_
    simp [Nat.lt_succ_self i, h]
  exact mem_le_runPeak 0 _ _ hmem

/-! ### Unfolding the backtest at an index -/

lemma backtest_getD (sqrtQ : ℚ → ℚ) (data : List Bar) (w : ℕ) (e x : ℚ)
    (l : Logic) (s : Side) {i : ℕ} (h : i < data.length) :
    (backtest sqrtQ data w e x l s).getD i simDflt =
      (fun df => (fun cums => (fun dds => (fun b =>
        (⟨b.time, b.close, b.mean, b.std, b.zscore, b.pos, priceChangeAt df i,
          posPrevAt df i, |posPrevAt df i - b.pos|, pnlAt df i,
          cums.getD i 0, dds.getD i 0⟩ : SimBar)) (df.getD i pbDflt))
        (scanDD 0 cums)) (scanSum 0 ((List.range df.length).map fun j => pnlAt df j)))
      (generateSignals (calculateZScore sqrtQ data w) e x l s) := by
  have hn : i < (generateSignals (calculateZScore sqrtQ data w) e x l s).length := by
    rw [length_generateSignals, length_calculateZScore]
    exact h
  simp only [backtest]
  rw [getD_range_map _ _ hn]

lemma calculateZScore_getD_short (sqrtQ : ℚ → ℚ) (data : List Bar) (window : ℕ)
    {i : ℕ} (hi : i < data.length) (hw : i < window - 1) :
    (calculateZScore sqrtQ data window).getD i sbDflt =
      ⟨(data.getD i barDflt).time, (data.getD i barDflt).close,
        Option.none, Option.none, Option.none⟩ := by
  simp only [calculateZScore]
  rw [getD_range_map _ _ hi]
  simp [hw]

lemma calculateZScore_getD_full (sqrtQ : ℚ → ℚ) (data : List Bar) (window : ℕ)
    {i : ℕ} (hi : i < data.length) (hw : ¬ i < window - 1) :
    (calculateZScore sqrtQ data window).getD i sbDflt =
      (fun windowData => (fun mean => (fun variance => (fun std =>
        (⟨(data.getD i barDflt).time, (data.getD i barDflt).close, some mean,
          some std,
          some (if std ≠ 0 then ((data.getD i barDflt).close - mean) / std else 0)⟩ :
          ScoredBar)) (sqrtQ variance))
        ((windowData.map fun val => (val - mean) ^ 2).sum / (window : ℚ)))
        (windowData.sum / (window : ℚ)))
      (((data.drop (i + 1 - window)).take window).map Bar.close) := by
  simp only [calculateZScore]
  rw [getD_range_map _ _ hi]
  simp [hw]

/-- When the whole series is shorter than the window, every bar's z-score is
`null`. -/
lemma zscore_none_of_short (sqrtQ : ℚ → ℚ) (data : List Bar) (window : ℕ)
    (hshort : data.length < window) {i : ℕ} (hi : i < data.length) :
    ((calculateZScore sqrtQ data window).getD i sbDflt).zscore = Option.none := by
  rw [calculateZScore_getD_short sqrtQ data window hi (by omega)]

/-- If every bar's z-score is `null`, the emitted positions are all 0. -/
lemma signalPositions_all_zero (scored : List ScoredBar) (e x : ℚ) (l : Logic)
    (s : Side)
    (hz : ∀ i, i < scored.length → (scored.getD i sbDflt).zscore = Option.none) :
    ∀ i, i < scored.length → (signalPositions scored e x l s).getD i 0 = 0 := by
  intro i
  induction i using Nat.strong_induction_on with
  | _ i ih =>
    intro hi
    rw [signalPositions_step scored e x l s hi, hz i hi]
    cases hzero : decide (i = 0) with
    | true =>
      simp at hzero
      simp [batchNextPos, hzero]
    | false =>
      simp at hzero
      have : i - 1 < i := by omega
      simp only [batchNextPos, if_neg hzero]
      exact ih (i - 1) this (by omega)

/-! ### Claim C4 -/

/-- Claim C4: in `generateSignals`, every bar whose raw decision is `NaN`
(no z-score, or trend-mode thresholds not triggered) inherits the previous
emitted position, index 0 defaulting to 0; and for trend/long with
entry 1.0 / exit -1.0 the z-score sequence `[NaN, NaN, 1.5, 0.2, -1.2]`
yields positions `[0, 0, 1, 1, 0]`. -/
theorem claim_C4_forward_fill (scored : List ScoredBar) (e x : ℚ) (l : Logic)
    (s : Side) (i : ℕ) (h : i < scored.length)
    (hraw : (rawSignals scored e x l s).getD i Option.none = Option.none) :
    ((signalPositions scored e x l s).getD i 0 =
      if i = 0 then 0 else (signalPositions scored e x l s).getD (i - 1) 0) ∧
    signalPositions
      [⟨0, 0, Option.none, Option.none, Option.none⟩,
       ⟨1, 0, Option.none, Option.none, Option.none⟩,
       ⟨2, 0, Option.none, Option.none, some (3 / 2)⟩,
       ⟨3, 0, Option.none, Option.none, some (1 / 5)⟩,
       ⟨4, 0, Option.none, Option.none, some (-(6 / 5))⟩] 1 (-1)
      Logic.trend Side.long = [0, 0, 1, 1, 0] := by
  constructor
  · have h2 : i < (rawSignals scored e x l s).length := by
      rwa [length_rawSignals]
    rw [signalPositions, ffill_getD_step _ _ h2, hraw]
    rfl
  · norm_num [signalPositions, rawSignals, rawPos, ffill]

/-- Witness for C4 at a concrete input: in the scenario list, bar 3 has a
defined z-score but triggers neither trend/long threshold, so its raw
decision is `NaN` and it inherits position 1 from bar 2. -/
theorem claim_C4_witness :
    ((signalPositions
      [⟨0, 0, Option.none, Option.none, Option.none⟩,
       ⟨1, 0, Option.none, Option.none, Option.none⟩,
       ⟨2, 0, Option.none, Option.none, some (3 / 2)⟩,
       ⟨3, 0, Option.none, Option.none, some (1 / 5)⟩,
       ⟨4, 0, Option.none, Option.none, some (-(6 / 5))⟩] 1 (-1)
      Logic.trend Side.long).getD 3 0 =
      if 3 = 0 then 0 else
        (signalPositions
          [⟨0, 0, Option.none, Option.none, Option.none⟩,
           ⟨1, 0, Option.none, Option.none, Option.none⟩,
           ⟨2, 0, Option.none, Option.none, some (3 / 2)⟩,
           ⟨3, 0, Option.none, Option.none, some (1 / 5)⟩,
           ⟨4, 0, Option.none, Option.none, some (-(6 / 5))⟩] 1 (-1)
          Logic.trend Side.long).getD (3 - 1) 0) ∧
    signalPositions
      [⟨0, 0, Option.none, Option.none, Option.none⟩,
       ⟨1, 0, Option.none, Option.none, Option.none⟩,
       ⟨2, 0, Option.none, Option.none, some (3 / 2)⟩,
       ⟨3, 0, Option.none, Option.none, some (1 / 5)⟩,
       ⟨4, 0, Option.none, Option.none, some (-(6 / 5))⟩] 1 (-1)
      Logic.trend Side.long = [0, 0, 1, 1, 0] :=
  claim_C4_forward_fill
    [⟨0, 0, Option.none, Option.none, Option.none⟩,
     ⟨1, 0, Option.none, Option.none, Option.none⟩,
     ⟨2, 0, Option.none, Option.none, some (3 / 2)⟩,
     ⟨3, 0, Option.none, Option.none, some (1 / 5)⟩,
     ⟨4, 0, Option.none, Option.none, some (-(6 / 5))⟩] 1 (-1)
    Logic.trend Side.long 3 (by decide) (by norm_num [rawSignals, rawPos])

/-! ### Claim C5 -/

/-- Claim C5: with `side = "both"` (either logic), a bar whose z-score
satisfies both the long condition `z ≥ entry` and the short condition
`z ≤ exit` gets raw position `-1`: the short assignment is evaluated after
the long one and wins the tie, and the emitted position at that bar is `-1`. -/
theorem claim_C5_short_wins_tie (l : Logic) (scored : List ScoredBar)
    (e x z : ℚ) (i : ℕ) (h : i < scored.length)
    (hz : (scored.getD i sbDflt).zscore = some z)
    (_hlong : e ≤ z) (hshort : z ≤ x) :
    rawPos l Side.both e x z = some (-1) ∧
    (signalPositions scored e x l Side.both).getD i 0 = -1 := by
  have hraw : rawPos l Side.both e x z = some (-1) := by
    cases l <;> simp [rawPos, hshort]
  refine ⟨hraw, ?_⟩
  rw [signalPositions_step scored e x l Side.both h, hz]
  simp [batchNextPos, hraw]

/-- Witness for C5: misconfigured thresholds entry 1, exit 2 and z-score 1.5
satisfy both conditions; the emitted position is -1. -/
theorem claim_C5_witness :
    rawPos Logic.trend Side.both 1 2 (3 / 2) = some (-1) ∧
    (signalPositions [⟨0, 0, Option.none, Option.none, some (3 / 2)⟩] 1 2
      Logic.trend Side.both).getD 0 0 = -1 :=
  claim_C5_short_wins_tie Logic.trend
    [⟨0, 0, Option.none, Option.none, some (3 / 2)⟩] 1 2 (3 / 2) 0
    (by decide) rfl (by norm_num) (by norm_num)

/-! ### Claim C7 -/

/-- Claim C7: `StrategyEvaluator.evaluate` always produces exactly four
pass/fail reason lines in the fixed order Sharpe, Calmar, MaxDrawdown,
Trades; a `NaN` Sharpe or Calmar fails its check; `recommended` is true iff
all four checks pass; and on Sharpe 1.2, Calmar 0.5, MaxDrawdown -0.1,
Trades 15 with default thresholds the result is not recommended with only
the Calmar line failing. -/
theorem claim_C7_evaluator (minS minC mddF : ℚ) (minT : ℤ) (m : Metrics) :
    (evaluate minS minC mddF minT m).2.map Prod.snd =
      [Check.sharpe, Check.calmar, Check.maxDD, Check.trades] ∧
    (evaluate minS minC mddF minT m).2.length = 4 ∧
    ((evaluate minS minC mddF minT m).1 = true ↔
      (((evaluate minS minC mddF minT m).2.getD 0 (true, Check.sharpe)).1 = true ∧
       ((evaluate minS minC mddF minT m).2.getD 1 (true, Check.calmar)).1 = true ∧
       ((evaluate minS minC mddF minT m).2.getD 2 (true, Check.maxDD)).1 = true ∧
       ((evaluate minS minC mddF minT m).2.getD 3 (true, Check.trades)).1 = true)) ∧
    (m.sharpe = Option.none →
      ((evaluate minS minC mddF minT m).2.getD 0 (true, Check.sharpe)).1 = false) ∧
    (m.calmar = Option.none →
      ((evaluate minS minC mddF minT m).2.getD 1 (true, Check.calmar)).1 = false) ∧
    evaluate 1 1 (-(3 / 10)) 10
      ⟨some (6 / 5), some (1 / 2), -(1 / 10), 0, 0, 15, 0, 0,
        Option.none, Option.none, 0⟩ =
      (false, [(true, Check.sharpe), (false, Check.calmar),
        (true, Check.maxDD), (true, Check.trades)]) := by
  refine ⟨?_, ?_, ?_, ?_, ?_, ?_⟩
  · simp [evaluate]
  · simp [evaluate]
  · cases h1 : checkSharpe minS m <;> cases h2 : checkCalmar minC m <;>
      cases h3 : checkMdd mddF m <;> cases h4 : checkTradeCount minT m <;>
      simp [evaluate, h1, h2, h3, h4]
  · intro hnan
    simp [evaluate, checkSharpe, hnan]
  · intro hnan
    simp [evaluate, checkCalmar, hnan]
  · norm_num [evaluate, checkSharpe, checkCalmar, checkMdd, checkTradeCount]

/-- Witness for C7 at a concrete metrics record with `NaN` Sharpe and
Calmar: both checks fail and the result is not recommended. -/
theorem claim_C7_witness :
    ((evaluate 1 1 (-(3 / 10)) 10 emptyMetrics).2.getD 0 (true, Check.sharpe)).1
      = false ∧
    ((evaluate 1 1 (-(3 / 10)) 10 emptyMetrics).2.getD 1 (true, Check.calmar)).1
      = false ∧
    (evaluate 1 1 (-(3 / 10)) 10 emptyMetrics).2.map Prod.snd =
      [Check.sharpe, Check.calmar, Check.maxDD, Check.trades] :=
  ⟨(claim_C7_evaluator 1 1 (-(3 / 10)) 10 emptyMetrics).2.2.2.1 rfl,
   (claim_C7_evaluator 1 1 (-(3 / 10)) 10 emptyMetrics).2.2.2.2.1 rfl,
   (claim_C7_evaluator 1 1 (-(3 / 10)) 10 emptyMetrics).1⟩

/-! ### Claim C1 -/

/-- Counterexample to claim C1: for trend/long with entry 1, exit -1, a
z-score exactly at the entry threshold and a flat current position, the live
transition stays flat (strict `>` comparison) while the batch rule enters
long (non-strict `>=`), so the live path does not implement the identical
decision rule. -/
theorem claim_C1_counterexample :
    toIntPos (liveTransition Logic.trend Side.long 1 (-1) 1 LivePos.none) ≠
      batchNextPos Logic.trend Side.long 1 (-1) (some 1)
        (toIntPos LivePos.none) := by
  norm_num [liveTransition, batchNextPos, rawPos, toIntPos]

/-- Claim C1 amended: the live transition agrees with the batch rule only in
restricted cases — for trend with side "both" when `exit < entry` and the
z-score is not exactly at either threshold, and for fast single-sided modes
when the z-score is not exactly at the side's own threshold and the current
position is not on the opposite side.  (Elsewhere the live path diverges:
it uses strict comparisons where the batch path is non-strict, and
single-sided trend mode is stateless instead of hold-on-neutral.) -/
theorem claim_C1_amended_live_matches_batch (e x z : ℚ) (cur : LivePos) :
    (x < e → z ≠ e → z ≠ x →
      toIntPos (liveTransition Logic.trend Side.both e x z cur) =
        batchNextPos Logic.trend Side.both e x (some z) (toIntPos cur)) ∧
    (z ≠ e → cur ≠ LivePos.short →
      toIntPos (liveTransition Logic.fast Side.long e x z cur) =
        batchNextPos Logic.fast Side.long e x (some z) (toIntPos cur)) ∧
    (z ≠ x → cur ≠ LivePos.long →
      toIntPos (liveTransition Logic.fast Side.short e x z cur) =
        batchNextPos Logic.fast Side.short e x (some z) (toIntPos cur)) := by
  refine ⟨?_, ?_, ?_⟩
  · intro hxe hze hzx
    rcases lt_trichotomy z e with he | he | he
    · have h1 : ¬ e < z := by linarith
      have h2 : ¬ e ≤ z := by linarith
      rcases lt_trichotomy z x with hx2 | hx2 | hx2
      · have h3 : z ≤ x := le_of_lt hx2
        cases cur <;>
          simp [liveTransition, batchNextPos, rawPos, toIntPos, hx2, h1, h2, h3]
      · exact (hzx hx2).elim
      · have h3 : ¬ z < x := by linarith
        have h4 : ¬ z ≤ x := by linarith
        cases cur <;>
          simp [liveTransition, batchNextPos, rawPos, toIntPos, h1, h2, h3, h4]
    · exact (hze he).elim
    · have h1 : e ≤ z := le_of_lt he
      have h3 : ¬ z < x := by linarith
      have h4 : ¬ z ≤ x := by linarith
      cases cur <;>
        simp [liveTransition, batchNextPos, rawPos, toIntPos, he, h1, h3, h4]
  · intro hze hcs
    rcases lt_trichotomy z e with he | he | he
    · have h1 : ¬ e < z := by linarith
      have h2 : ¬ e ≤ z := by linarith
      cases cur
      case long =>
        simp [liveTransition, liveFast, batchNextPos, rawPos, toIntPos, he, h1, h2]
      case short => exact (hcs rfl).elim
      case none =>
        simp [liveTransition, liveFast, batchNextPos, rawPos, toIntPos, he, h1, h2]
    · exact (hze he).elim
    · have h1 : e ≤ z := le_of_lt he
      have h2 : ¬ z < e := by linarith
      cases cur
      case long =>
        simp [liveTransition, liveFast, batchNextPos, rawPos, toIntPos, he, h1, h2]
      case short => exact (hcs rfl).elim
      case none =>
        simp [liveTransition, liveFast, batchNextPos, rawPos, toIntPos, he, h1, h2]
  · intro hzx hcl
    rcases lt_trichotomy z x with hx2 | hx2 | hx2
    · have h1 : ¬ x < z := by linarith
      have h2 : z ≤ x := le_of_lt hx2
      cases cur
      case long => exact (hcl rfl).elim
      case short =>
        simp [liveTransition, liveFast, batchNextPos, rawPos, toIntPos, hx2, h1, h2]
      case none =>
        simp [liveTransition, liveFast, batchNextPos, rawPos, toIntPos, hx2, h1, h2]
    · exact (hzx hx2).elim
    · have h1 : x ≤ z := le_of_lt hx2
      have h2 : ¬ z < x := by linarith
      have h3 : ¬ z ≤ x := by linarith
      have h4 : x < z := hx2
      cases cur
      case long => exact (hcl rfl).elim
      case short =>
        simp [liveTransition, liveFast, batchNextPos, rawPos, toIntPos, h1, h2, h3, h4]
      case none =>
        simp [liveTransition, liveFast, batchNextPos, rawPos, toIntPos, h1, h2, h3, h4]

/-- Witness for the amended C1 at concrete inputs: entry 1, exit -1,
z-score 2, flat current position. -/
theorem claim_C1_amended_witness :
    (toIntPos (liveTransition Logic.trend Side.both 1 (-1) 2 LivePos.none) =
      batchNextPos Logic.trend Side.both 1 (-1) (some 2)
        (toIntPos LivePos.none)) ∧
    (toIntPos (liveTransition Logic.fast Side.long 1 (-1) 2 LivePos.none) =
      batchNextPos Logic.fast Side.long 1 (-1) (some 2)
        (toIntPos LivePos.none)) ∧
    (toIntPos (liveTransition Logic.fast Side.short 1 (-1) 2 LivePos.none) =
      batchNextPos Logic.fast Side.short 1 (-1) (some 2)
        (toIntPos LivePos.none)) :=
  ⟨(claim_C1_amended_live_matches_batch 1 (-1) 2 LivePos.none).1
      (by norm_num) (by norm_num) (by norm_num),
   (claim_C1_amended_live_matches_batch 1 (-1) 2 LivePos.none).2.1
      (by norm_num) (by simp),
   (claim_C1_amended_live_matches_batch 1 (-1) 2 LivePos.none).2.2
      (by norm_num) (by simp)⟩

/-! ### Live tick helper lemmas -/

/-- A tick that ends in `processed` has committed the new hour into
`lastHourlyTimestamp`. -/
lemma processed_last_timestamp (sqrtQ : ℚ → ℚ) (env : TickEnv) (s : Bool)
    (st st1 : LiveState) (d : Bool)
    (h : checkTradingSignal sqrtQ env s st = (st1, TickOut.processed d)) :
    st1.lastHourlyTimestamp = some env.currentHourlyTimestamp := by
  unfold checkTradingSignal at h
  repeat' first
    | split at h
    | dsimp only at h
  all_goals first
    | (simp_all; done)
    | (injection h with h1 h2; rw [← h1])

/-! ### Claim C8 -/

/-- Claim C8: the committed live state after a tick does not depend on
whether the hourly notification send succeeds — the position transition is
committed before the send is attempted, and a failed send does not roll it
back. -/
theorem claim_C8_send_failure_safe (sqrtQ : ℚ → ℚ) (env : TickEnv)
    (s1 s2 : Bool) (st : LiveState) :
    (checkTradingSignal sqrtQ env s1 st).1 =
      (checkTradingSignal sqrtQ env s2 st).1 := by
  unfold checkTradingSignal
  repeat' first
    | split
    | dsimp only

/-! ### Claim C9 -/

/-- Claim C9: if one tick completed processing a closed bar, a second tick
(with any send outcome and any square-root interpretation, i.e. without
recomputation) that observes the same last-closed-bar timestamp is a no-op:
it returns at the new-hour check, leaving `lastHourlyTimestamp` and
`currentPosition` unchanged; moreover the first tick recorded exactly its
observed hourly timestamp. -/
theorem claim_C9_idempotent_tick (sqrtQ sqrtR : ℚ → ℚ) (env1 env2 : TickEnv)
    (s1 s2 : Bool) (st st1 : LiveState) (d : Bool)
    (h1 : checkTradingSignal sqrtQ env1 s1 st = (st1, TickOut.processed d))
    (ht : env2.currentHourlyTimestamp = env1.currentHourlyTimestamp)
    (hc : env2.hasCreds = true) :
    checkTradingSignal sqrtR env2 s2 st1 = (st1, TickOut.noNewBar) ∧
    st1.lastHourlyTimestamp = some env1.currentHourlyTimestamp := by
  have hlast : st1.lastHourlyTimestamp = some env1.currentHourlyTimestamp :=
    processed_last_timestamp sqrtQ env1 s1 st st1 d h1
  refine ⟨?_, hlast⟩
  unfold checkTradingSignal
  rw [if_neg (by simp [hc]), hlast, ht]
  simp

/-! ### Claim C10 -/

/-- Claim C10: a tick that fails before the decision step — the data fetch
threw, fewer than `window` bars came back, or the last bar's z-score is
`null` — leaves `lastHourlyTimestamp` and `currentPosition` unchanged, so the
hour is not marked processed; and a later tick in the same hour whose
environment is healthy (credentials, enough bars, defined z-score) completes
the full computation and marks the hour. -/
theorem claim_C10_failed_tick_retries (sqrtQ sqrtR : ℚ → ℚ)
    (env env2 : TickEnv) (s1 s2 : Bool) (st : LiveState) (bars2 : List Bar) :
    ((env.fetchResult = Option.none ∨
      (∃ bars, env.fetchResult = some bars ∧ bars.length < env.window) ∨
      (∃ bars, env.fetchResult = some bars ∧
        ((calculateZScore sqrtQ bars env.window).getLast?.bind ScoredBar.zscore)
          = Option.none)) →
      (checkTradingSignal sqrtQ env s1 st).1 = st) ∧
    ((env2.hasCreds = true →
      env2.currentHourlyTimestamp = env.currentHourlyTimestamp →
      (st.lastHourlyTimestamp = Option.none ∨
        (∃ t0, st.lastHourlyTimestamp = some t0 ∧
          t0 < env2.currentHourlyTimestamp)) →
      env2.fetchResult = some bars2 →
      ¬ bars2.length < env2.window →
      ((calculateZScore sqrtR bars2 env2.window).getLast?.bind ScoredBar.zscore)
        ≠ Option.none →
      (checkTradingSignal sqrtR env2 s2 st).1.lastHourlyTimestamp =
        some env2.currentHourlyTimestamp)) := by
  constructor
  · intro hfail
    by_cases hc : env.hasCreds = false
    · simp [checkTradingSignal, hc]
    · unfold checkTradingSignal
      rw [if_neg hc]
      dsimp only
      rcases hst : st.lastHourlyTimestamp with _ | t0
      all_goals dsimp only
      · rw [if_neg (by simp)]
        rcases hfail with hf | ⟨bars, hf, hlen⟩ | ⟨bars, hf, hz⟩
        · rw [hf]
        · rw [hf]
          dsimp only
          rw [if_pos hlen]
        · rw [hf]
          dsimp only
          by_cases hlen2 : bars.length < env.window
          · rw [if_pos hlen2]
          · rw [if_neg hlen2]
            rcases hgl : (calculateZScore sqrtQ bars env.window).getLast? with
              _ | lastData
            · rfl
            · dsimp only
              rcases hzb : lastData.zscore with _ | zval
              · rfl
              · rw [hgl] at hz
                simp [hzb] at hz
      · by_cases hlt : decide (t0 < env.currentHourlyTimestamp) = true
        case neg =>
          rw [if_pos (by simp_all)]
        case pos =>
          rw [if_neg (by simp [hlt])]
          rcases hfail with hf | ⟨bars, hf, hlen⟩ | ⟨bars, hf, hz⟩
          · rw [hf]
          · rw [hf]
            dsimp only
            rw [if_pos hlen]
          · rw [hf]
            dsimp only
            by_cases hlen2 : bars.length < env.window
            · rw [if_pos hlen2]
            · rw [if_neg hlen2]
              rcases hgl : (calculateZScore sqrtQ bars env.window).getLast? with
                _ | lastData
              · rfl
              · dsimp only
                rcases hzb : lastData.zscore with _ | zval
                · rfl
                · rw [hgl] at hz
                  simp [hzb] at hz
  · intro hcred hsame hnew hfetch hlen hz
    unfold checkTradingSignal
    rw [if_neg (by simp [hcred]), hfetch]
    have hguard :
        ¬ ((¬ (match st.lastHourlyTimestamp with
            | Option.none => true
            | some t => decide (t < env2.currentHourlyTimestamp)) = true) ∧
          st.lastHourlyTimestamp ≠ Option.none) := by
      rcases hnew with hn | ⟨t0, hn, hlt⟩
      · simp [hn]
      · simp [hn, hlt]
    rw [if_neg hguard]
    dsimp only
    rw [if_neg hlen]
    rcases hgl : (calculateZScore sqrtR bars2 env2.window).getLast? with
      _ | lastData
    · rw [hgl] at hz
      simp at hz
    · dsimp only
      rcases hzb : lastData.zscore with _ | zval
      · rw [hgl] at hz
        simp [hzb] at hz
      · rfl

/-- Witness for C9: a concrete first tick (window 1, one fetched bar,
hour 1000) processes the bar; the second tick at the same hour is a no-op. -/
theorem claim_C9_witness :
    checkTradingSignal (fun q => q)
      ⟨Logic.trend, Side.long, 1, 1, -1, true, 1000, some [⟨0, 100⟩]⟩ false
      ⟨some 1000, LivePos.none⟩ =
      (⟨some 1000, LivePos.none⟩, TickOut.noNewBar) ∧
    (⟨some 1000, LivePos.none⟩ : LiveState).lastHourlyTimestamp = some 1000 :=
  claim_C9_idempotent_tick (fun q => q) (fun q => q)
    ⟨Logic.trend, Side.long, 1, 1, -1, true, 1000, some [⟨0, 100⟩]⟩
    ⟨Logic.trend, Side.long, 1, 1, -1, true, 1000, some [⟨0, 100⟩]⟩
    true false ⟨Option.none, LivePos.none⟩ ⟨some 1000, LivePos.none⟩ true
    (by norm_num [checkTradingSignal, calculateZScore, liveTransition,
      List.range_succ, List.getLast?])
    rfl rfl

/-- Witness for C10: a tick whose fetch throws changes nothing, and a retry
tick in the same hour with a healthy fetch marks the hour processed. -/
theorem claim_C10_witness :
    (checkTradingSignal (fun q => q)
      ⟨Logic.trend, Side.long, 1, 1, -1, true, 1000, Option.none⟩ true
      ⟨Option.none, LivePos.none⟩).1 = ⟨Option.none, LivePos.none⟩ ∧
    (checkTradingSignal (fun q => q)
      ⟨Logic.trend, Side.long, 1, 1, -1, true, 1000, some [⟨0, 100⟩]⟩ false
      ⟨Option.none, LivePos.none⟩).1.lastHourlyTimestamp = some 1000 :=
  ⟨(claim_C10_failed_tick_retries (fun q => q) (fun q => q)
      ⟨Logic.trend, Side.long, 1, 1, -1, true, 1000, Option.none⟩
      ⟨Logic.trend, Side.long, 1, 1, -1, true, 1000, some [⟨0, 100⟩]⟩
      true false ⟨Option.none, LivePos.none⟩ [⟨0, 100⟩]).1 (Or.inl rfl),
   (claim_C10_failed_tick_retries (fun q => q) (fun q => q)
      ⟨Logic.trend, Side.long, 1, 1, -1, true, 1000, Option.none⟩
      ⟨Logic.trend, Side.long, 1, 1, -1, true, 1000, some [⟨0, 100⟩]⟩
      true false ⟨Option.none, LivePos.none⟩ [⟨0, 100⟩]).2 rfl rfl
      (Or.inl rfl) rfl (by decide)
      (by norm_num [calculateZScore, List.range_succ, List.getLast?]
          exact fun h => Option.noConfusion h)⟩

/-! ### Claim C3 -/

lemma const_windowData (c : ℚ) (t : ℤ) (m window j : ℕ) (_hw : 1 ≤ window)
    (hj : j < m) (hjw : window - 1 ≤ j) :
    (((List.replicate m (⟨t, c⟩ : Bar)).drop (j + 1 - window)).take window).map
      Bar.close = List.replicate window c := by
  rw [List.drop_replicate, List.take_replicate, List.map_replicate]
  congr 1
  omega

/-- On a constant-price series, every bar with a full window of history gets
`std = 0` and `zscore = 0` (given that the square root of 0 is 0). -/
lemma calculateZScore_const (sqrtQ : ℚ → ℚ) (hs0 : sqrtQ 0 = 0) (c : ℚ) (t : ℤ)
    (m window : ℕ) (hw : 1 ≤ window) (j : ℕ) (hj : j < m)
    (hjw : window - 1 ≤ j) :
    ((calculateZScore sqrtQ (List.replicate m ⟨t, c⟩) window).getD j sbDflt).std
      = some 0 ∧
    ((calculateZScore sqrtQ (List.replicate m ⟨t, c⟩) window).getD j
      sbDflt).zscore = some 0 := by
  have hjl : j < (List.replicate m (⟨t, c⟩ : Bar)).length := by simpa using hj
  rw [calculateZScore_getD_full sqrtQ _ window hjl (by omega),
    const_windowData c t m window j hw hj hjw]
  have hwne : (window : ℚ) ≠ 0 := Nat.cast_ne_zero.mpr (by omega)
  have hmean : (List.replicate window c).sum / (window : ℚ) = c := by
    rw [List.sum_replicate, nsmul_eq_mul]
    field_simp
  have hvar : ((List.replicate window c).map fun val =>
      (val - (List.replicate window c).sum / (window : ℚ)) ^ 2).sum /
      (window : ℚ) = 0 := by
    rw [hmean]
    simp [List.map_replicate, List.sum_replicate]
  constructor
  · simp only [hvar, hs0]
  · simp only [hvar, hs0]
    simp

/-- Claim C3: `calculateZScore` leaves mean/std/zscore undefined exactly for
indices `i < window - 1`; at every other index it emits the mean of the
closes over `[i - window + 1, i]`, the square root of the population variance
(denominator `window`), and `zscore = (close - mean) / std` when `std ≠ 0`,
else `0`; and on a constant-price series every full-window bar gets `std = 0`
and `zscore = 0`, never a division fault. -/
theorem claim_C3_rolling_stats (sqrtQ : ℚ → ℚ) (data : List Bar) (window : ℕ)
    (hw : 1 ≤ window) (i : ℕ) (hi : i < data.length) (c : ℚ) (t : ℤ)
    (m j : ℕ) :
    (calculateZScore sqrtQ data window).length = data.length ∧
    (i < window - 1 →
      ((calculateZScore sqrtQ data window).getD i sbDflt).mean = Option.none ∧
      ((calculateZScore sqrtQ data window).getD i sbDflt).std = Option.none ∧
      ((calculateZScore sqrtQ data window).getD i sbDflt).zscore =
        Option.none) ∧
    (¬ i < window - 1 →
      ((calculateZScore sqrtQ data window).getD i sbDflt).mean =
        some ((((data.drop (i + 1 - window)).take window).map Bar.close).sum /
          (window : ℚ)) ∧
      ((calculateZScore sqrtQ data window).getD i sbDflt).std =
        some (sqrtQ (((((data.drop (i + 1 - window)).take window).map
            Bar.close).map fun val =>
          (val - (((data.drop (i + 1 - window)).take window).map
            Bar.close).sum / (window : ℚ)) ^ 2).sum / (window : ℚ))) ∧
      ((calculateZScore sqrtQ data window).getD i sbDflt).zscore =
        some (if sqrtQ (((((data.drop (i + 1 - window)).take window).map
              Bar.close).map fun val =>
            (val - (((data.drop (i + 1 - window)).take window).map
              Bar.close).sum / (window : ℚ)) ^ 2).sum / (window : ℚ)) ≠ 0
          then ((data.getD i barDflt).close -
              (((data.drop (i + 1 - window)).take window).map Bar.close).sum /
                (window : ℚ)) /
            sqrtQ (((((data.drop (i + 1 - window)).take window).map
                Bar.close).map fun val =>
              (val - (((data.drop (i + 1 - window)).take window).map
                Bar.close).sum / (window : ℚ)) ^ 2).sum / (window : ℚ))
          else 0)) ∧
    (sqrtQ 0 = 0 → j < m → window - 1 ≤ j →
      ((calculateZScore sqrtQ (List.replicate m ⟨t, c⟩) window).getD j
        sbDflt).std = some 0 ∧
      ((calculateZScore sqrtQ (List.replicate m ⟨t, c⟩) window).getD j
        sbDflt).zscore = some 0) := by
  refine ⟨length_calculateZScore sqrtQ data window, ?_, ?_, ?_⟩
  · intro hlt
    rw [calculateZScore_getD_short sqrtQ data window hi hlt]
    exact ⟨rfl, rfl, rfl⟩
  · intro hge
    rw [calculateZScore_getD_full sqrtQ data window hi hge]
    exact ⟨rfl, rfl, rfl⟩
  · intro hs0 hj hjw
    exact calculateZScore_const sqrtQ hs0 c t m window hw j hj hjw

/-- Witness for C3 on the concrete series `[100, 102, 101, 105, 99]` with
window 3 (and the constant series `[7, 7, 7]`): bar 1 has no statistics, bar
2 has mean 101, and the constant series gets z-score 0. -/
theorem claim_C3_witness :
    ((calculateZScore (fun q => q)
      [⟨0, 100⟩, ⟨1, 102⟩, ⟨2, 101⟩, ⟨3, 105⟩, ⟨4, 99⟩] 3).getD 1
        sbDflt).zscore = Option.none ∧
    ((calculateZScore (fun q => q)
      [⟨0, 100⟩, ⟨1, 102⟩, ⟨2, 101⟩, ⟨3, 105⟩, ⟨4, 99⟩] 3).getD 2
        sbDflt).mean = some 101 ∧
    ((calculateZScore (fun q => q) (List.replicate 3 ⟨0, 7⟩) 3).getD 2
      sbDflt).zscore = some 0 := by
  refine ⟨?_, ?_, ?_⟩
  · exact ((claim_C3_rolling_stats (fun q => q)
      [⟨0, 100⟩, ⟨1, 102⟩, ⟨2, 101⟩, ⟨3, 105⟩, ⟨4, 99⟩] 3 (by decide) 1
      (by decide) 7 0 3 2).2.1 (by decide)).2.2
  · have h := ((claim_C3_rolling_stats (fun q => q)
      [⟨0, 100⟩, ⟨1, 102⟩, ⟨2, 101⟩, ⟨3, 105⟩, ⟨4, 99⟩] 3 (by decide) 2
      (by decide) 7 0 3 2).2.2.1 (by decide)).1
    rw [h]
    norm_num
  · exact ((claim_C3_rolling_stats (fun q => q)
      [⟨0, 100⟩, ⟨1, 102⟩, ⟨2, 101⟩, ⟨3, 105⟩, ⟨4, 99⟩] 3 (by decide) 2
      (by decide) 7 0 3 2).2.2.2 rfl (by decide) (by decide)).2

/-! ### Claim C6 -/

lemma range_map_getD_self (l : List ℚ) :
    (List.range l.length).map (fun k => l.getD k 0) = l := by
  refine List.ext_getElem (by simp) ?_
  intro k h1 h2
  simp only [List.getElem_map]
  rw [List.getElem_range]
  exact (getD_eq_of_lt l 0 h2).symm ▸ rfl

lemma sub_max_eq_min (p : ℚ) : p - max 0 p = min 0 p := by
  rcases le_total 0 p with h | h
  · rw [max_eq_right h, min_eq_left h]
    ring
  · rw [max_eq_left h, min_eq_right h]
    ring

lemma backtest_map_pnl (sqrtQ : ℚ → ℚ) (data : List Bar) (w : ℕ) (e x : ℚ)
    (l : Logic) (s : Side) :
    (backtest sqrtQ data w e x l s).map SimBar.pnl =
      (List.range (generateSignals (calculateZScore sqrtQ data w) e x l
        s).length).map
        (pnlAt (generateSignals (calculateZScore sqrtQ data w) e x l s)) := by
  simp only [backtest, List.map_map]
  rfl

lemma backtest_map_cumulative (sqrtQ : ℚ → ℚ) (data : List Bar) (w : ℕ)
    (e x : ℚ) (l : Logic) (s : Side) :
    (backtest sqrtQ data w e x l s).map SimBar.cumulativePnl =
      scanSum 0 ((List.range (generateSignals (calculateZScore sqrtQ data w)
        e x l s).length).map
        (pnlAt (generateSignals (calculateZScore sqrtQ data w) e x l s))) := by
  simp only [backtest, List.map_map]
  conv_rhs => rw [← range_map_getD_self (scanSum 0 ((List.range
    (generateSignals (calculateZScore sqrtQ data w) e x l s).length).map
    (pnlAt (generateSignals (calculateZScore sqrtQ data w) e x l s))))]
  rw [length_scanSum, List.length_map, List.length_range]
  rfl

/-- Claim C6: every bar of the backtest output has a position in
{-1, 0, 1}; its cumulative PnL is the prefix sum of the per-bar PnL in time
order; the running peak (running maximum of cumulative PnL seeded at 0) is
non-decreasing; drawdown equals cumulative PnL minus the running peak and is
never positive (at bar 0 it is `min 0 pnl`); and `trades` equals
`|posPrev - pos|` and lies in {0, 1, 2}. -/
theorem claim_C6_backtest_invariants (sqrtQ : ℚ → ℚ) (data : List Bar)
    (w : ℕ) (e x : ℚ) (l : Logic) (s : Side) (i j : ℕ)
    (hi : i < data.length) (hj : j ≤ i) :
    (((backtest sqrtQ data w e x l s).getD i simDflt).pos = -1 ∨
      ((backtest sqrtQ data w e x l s).getD i simDflt).pos = 0 ∨
      ((backtest sqrtQ data w e x l s).getD i simDflt).pos = 1) ∧
    ((backtest sqrtQ data w e x l s).getD i simDflt).cumulativePnl =
      (((backtest sqrtQ data w e x l s).map SimBar.pnl).take (i + 1)).sum ∧
    runPeak 0 (((backtest sqrtQ data w e x l s).map
        SimBar.cumulativePnl).take (j + 1)) ≤
      runPeak 0 (((backtest sqrtQ data w e x l s).map
        SimBar.cumulativePnl).take (i + 1)) ∧
    ((backtest sqrtQ data w e x l s).getD i simDflt).drawdown =
      ((backtest sqrtQ data w e x l s).getD i simDflt).cumulativePnl -
        runPeak 0 (((backtest sqrtQ data w e x l s).map
          SimBar.cumulativePnl).take (i + 1)) ∧
    ((backtest sqrtQ data w e x l s).getD i simDflt).drawdown ≤ 0 ∧
    (i = 0 → ((backtest sqrtQ data w e x l s).getD i simDflt).drawdown =
      min 0 ((backtest sqrtQ data w e x l s).getD i simDflt).pnl) ∧
    ((backtest sqrtQ data w e x l s).getD i simDflt).trades =
      |((backtest sqrtQ data w e x l s).getD i simDflt).posPrev -
        ((backtest sqrtQ data w e x l s).getD i simDflt).pos| ∧
    (((backtest sqrtQ data w e x l s).getD i simDflt).trades = 0 ∨
      ((backtest sqrtQ data w e x l s).getD i simDflt).trades = 1 ∨
      ((backtest sqrtQ data w e x l s).getD i simDflt).trades = 2) := by
  have hsc : i < (calculateZScore sqrtQ data w).length := by
    rw [length_calculateZScore]
    exact hi
  have hno : i < (generateSignals (calculateZScore sqrtQ data w) e x l
      s).length := by
    rw [length_generateSignals]
    exact hsc
  have hpll : ((List.range (generateSignals (calculateZScore sqrtQ data w)
      e x l s).length).map
      (pnlAt (generateSignals (calculateZScore sqrtQ data w) e x l
        s))).length =
      (generateSignals (calculateZScore sqrtQ data w) e x l s).length := by
    simp
  have hcl : (scanSum 0 ((List.range (generateSignals
      (calculateZScore sqrtQ data w) e x l s).length).map
      (pnlAt (generateSignals (calculateZScore sqrtQ data w) e x l
        s)))).length =
      (generateSignals (calculateZScore sqrtQ data w) e x l s).length := by
    rw [length_scanSum, hpll]
  have hpos : ((generateSignals (calculateZScore sqrtQ data w) e x l s).getD i
      pbDflt).pos =
      (signalPositions (calculateZScore sqrtQ data w) e x l s).getD i 0 := by
    rw [generateSignals_getD _ _ _ _ _ hsc]
  have hposmem := signalPositions_getD_mem (calculateZScore sqrtQ data w)
    e x l s hsc
  have hprevmem : posPrevAt (generateSignals (calculateZScore sqrtQ data w)
      e x l s) i = -1 ∨
      posPrevAt (generateSignals (calculateZScore sqrtQ data w) e x l s) i
        = 0 ∨
      posPrevAt (generateSignals (calculateZScore sqrtQ data w) e x l s) i
        = 1 := by
    unfold posPrevAt
    by_cases h0 : i = 0
    · rw [if_pos h0]
      exact Or.inr (Or.inl rfl)
    · rw [if_neg h0]
      have hsc1 : i - 1 < (calculateZScore sqrtQ data w).length := by omega
      rw [generateSignals_getD _ _ _ _ _ hsc1]
      exact signalPositions_getD_mem (calculateZScore sqrtQ data w) e x l s
        hsc1
  rw [backtest_getD sqrtQ data w e x l s hi, backtest_map_pnl,
    backtest_map_cumulative]
  dsimp only
  refine ⟨?_, ?_, ?_, ?_, ?_, ?_, ?_, ?_⟩
  · rw [hpos]
    exact hposmem
  · rw [scanSum_getD _ 0 (by rw [hpll]; exact hno), zero_add]
  · exact runPeak_take_mono _ hj
  · rw [scanDD_getD _ 0 (by rw [hcl]; exact hno)]
  · rw [scanDD_getD _ 0 (by rw [hcl]; exact hno)]
    have := getD_le_runPeak_take (scanSum 0 ((List.range (generateSignals
      (calculateZScore sqrtQ data w) e x l s).length).map
      (pnlAt (generateSignals (calculateZScore sqrtQ data w) e x l s))))
      (by rw [hcl]; exact hno)
    linarith
  · intro h0
    subst h0
    obtain ⟨p0, rest, hplc⟩ : ∃ p0 rest, (List.range (generateSignals
        (calculateZScore sqrtQ data w) e x l s).length).map
        (pnlAt (generateSignals (calculateZScore sqrtQ data w) e x l s)) =
        p0 :: rest := by
      cases hc : (List.range (generateSignals (calculateZScore sqrtQ data w)
          e x l s).length).map
          (pnlAt (generateSignals (calculateZScore sqrtQ data w) e x l s))
        with
      | nil =>
        exfalso
        have : ((List.range (generateSignals (calculateZScore sqrtQ data w)
            e x l s).length).map
            (pnlAt (generateSignals (calculateZScore sqrtQ data w) e x l
              s))).length = 0 := by
          rw [hc]
          rfl
        rw [hpll] at this
        omega
      | cons a b => exact ⟨a, b, rfl⟩
    have hp0 : p0 = pnlAt (generateSignals (calculateZScore sqrtQ data w)
        e x l s) 0 := by
      have := getD_range_map (pnlAt (generateSignals
        (calculateZScore sqrtQ data w) e x l s)) 0 hno
      rw [hplc] at this
      simpa using this
    rw [hplc]
    rw [show scanSum 0 (p0 :: rest) = (0 + p0) :: scanSum (0 + p0) rest
      from rfl]
    rw [show scanDD 0 ((0 + p0) :: scanSum (0 + p0) rest) =
      ((0 + p0) - max 0 (0 + p0)) :: scanDD (max 0 (0 + p0))
        (scanSum (0 + p0) rest) from rfl]
    rw [List.getD_cons_zero, zero_add, sub_max_eq_min, hp0]
  · rfl
  · rw [hpos]
    rcases hprevmem with h1 | h1 | h1 <;> rcases hposmem with h2 | h2 | h2 <;>
      rw [h1, h2] <;> decide


/-- Witness for C6: the invariants evaluated on the concrete three-bar series
`[100, 102, 101]` with window 2, entry 1, exit -1, trend/both, at bar 2
(where the position flips from long to short, so `trades = 2`). -/
theorem claim_C6_witness :
    (((backtest (fun q => q) [⟨0, 100⟩, ⟨1, 102⟩, ⟨2, 101⟩] 2 1 (-1) Logic.trend Side.both).getD 2 simDflt).pos = -1 ∨
      ((backtest (fun q => q) [⟨0, 100⟩, ⟨1, 102⟩, ⟨2, 101⟩] 2 1 (-1) Logic.trend Side.both).getD 2 simDflt).pos = 0 ∨
      ((backtest (fun q => q) [⟨0, 100⟩, ⟨1, 102⟩, ⟨2, 101⟩] 2 1 (-1) Logic.trend Side.both).getD 2 simDflt).pos = 1) ∧
    ((backtest (fun q => q) [⟨0, 100⟩, ⟨1, 102⟩, ⟨2, 101⟩] 2 1 (-1) Logic.trend Side.both).getD 2 simDflt).cumulativePnl =
      (((backtest (fun q => q) [⟨0, 100⟩, ⟨1, 102⟩, ⟨2, 101⟩] 2 1 (-1) Logic.trend Side.both).map SimBar.pnl).take (2 + 1)).sum ∧
    runPeak 0 (((backtest (fun q => q) [⟨0, 100⟩, ⟨1, 102⟩, ⟨2, 101⟩] 2 1 (-1) Logic.trend Side.both).map
        SimBar.cumulativePnl).take (1 + 1)) ≤
      runPeak 0 (((backtest (fun q => q) [⟨0, 100⟩, ⟨1, 102⟩, ⟨2, 101⟩] 2 1 (-1) Logic.trend Side.both).map
        SimBar.cumulativePnl).take (2 + 1)) ∧
    ((backtest (fun q => q) [⟨0, 100⟩, ⟨1, 102⟩, ⟨2, 101⟩] 2 1 (-1) Logic.trend Side.both).getD 2 simDflt).drawdown =
      ((backtest (fun q => q) [⟨0, 100⟩, ⟨1, 102⟩, ⟨2, 101⟩] 2 1 (-1) Logic.trend Side.both).getD 2 simDflt).cumulativePnl -
        runPeak 0 (((backtest (fun q => q) [⟨0, 100⟩, ⟨1, 102⟩, ⟨2, 101⟩] 2 1 (-1) Logic.trend Side.both).map
          SimBar.cumulativePnl).take (2 + 1)) ∧
    ((backtest (fun q => q) [⟨0, 100⟩, ⟨1, 102⟩, ⟨2, 101⟩] 2 1 (-1) Logic.trend Side.both).getD 2 simDflt).drawdown ≤ 0 ∧
    (2 = 0 → ((backtest (fun q => q) [⟨0, 100⟩, ⟨1, 102⟩, ⟨2, 101⟩] 2 1 (-1) Logic.trend Side.both).getD 2 simDflt).drawdown =
      min 0 ((backtest (fun q => q) [⟨0, 100⟩, ⟨1, 102⟩, ⟨2, 101⟩] 2 1 (-1) Logic.trend Side.both).getD 2 simDflt).pnl) ∧
    ((backtest (fun q => q) [⟨0, 100⟩, ⟨1, 102⟩, ⟨2, 101⟩] 2 1 (-1) Logic.trend Side.both).getD 2 simDflt).trades =
      |((backtest (fun q => q) [⟨0, 100⟩, ⟨1, 102⟩, ⟨2, 101⟩] 2 1 (-1) Logic.trend Side.both).getD 2 simDflt).posPrev -
        ((backtest (fun q => q) [⟨0, 100⟩, ⟨1, 102⟩, ⟨2, 101⟩] 2 1 (-1) Logic.trend Side.both).getD 2 simDflt).pos| ∧
    (((backtest (fun q => q) [⟨0, 100⟩, ⟨1, 102⟩, ⟨2, 101⟩] 2 1 (-1) Logic.trend Side.both).getD 2 simDflt).trades = 0 ∨
      ((backtest (fun q => q) [⟨0, 100⟩, ⟨1, 102⟩, ⟨2, 101⟩] 2 1 (-1) Logic.trend Side.both).getD 2 simDflt).trades = 1 ∨
      ((backtest (fun q => q) [⟨0, 100⟩, ⟨1, 102⟩, ⟨2, 101⟩] 2 1 (-1) Logic.trend Side.both).getD 2 simDflt).trades = 2) :=
  claim_C6_backtest_invariants (fun q => q) [⟨0, 100⟩, ⟨1, 102⟩, ⟨2, 101⟩]
    2 1 (-1) Logic.trend Side.both 2 1 (by decide) (by decide)

/-! ### Claim C2 -/

lemma range_map_eq_replicate {α : Type} {c : α} (n : ℕ) (f : ℕ → α)
    (h : ∀ i < n, f i = c) :
    (List.range n).map f = List.replicate n c := by
  refine List.ext_getElem (by simp) ?_
  intro k h1 h2
  simp only [List.getElem_map, List.getElem_replicate]
  rw [List.getElem_range]
  exact h k (by simpa using h1)

lemma scanSum_replicate_zero (n : ℕ) :
    scanSum 0 (List.replicate n (0 : ℚ)) = List.replicate n 0 := by
  induction n with
  | zero => rfl
  | succ k ih => simp [scanSum, ih, List.replicate_succ]

lemma scanDD_replicate_zero (n : ℕ) :
    scanDD 0 (List.replicate n (0 : ℚ)) = List.replicate n 0 := by
  induction n with
  | zero => rfl
  | succ k ih => simp [scanDD, ih, List.replicate_succ]

lemma listMin_replicate_zero (n : ℕ) :
    listMin (List.replicate n (0 : ℚ)) = 0 := by
  cases n with
  | zero => rfl
  | succ k =>
    simp only [List.replicate_succ, listMin]
    induction k with
    | zero => rfl
    | succ m ih => simpa [List.replicate_succ] using ih

lemma tradeEndsAux_nil_of_zero (df : List SimBar) (hz : ∀ b ∈ df, b.pos = 0) :
    ∀ i, tradeEndsAux 0 i df = [] := by
  induction df with
  | nil => intro i; rfl
  | cons b rest ih =>
    intro i
    have hb : b.pos = 0 := hz b (by simp)
    rw [show tradeEndsAux 0 i (b :: rest) =
      if (0 : ℤ) ≠ 0 ∧ b.pos = 0 then i :: tradeEndsAux b.pos (i + 1) rest
      else tradeEndsAux b.pos (i + 1) rest from rfl]
    rw [if_neg (by simp)]
    rw [hb]
    exact ih (fun b hbm => hz b (by simp [hbm])) (i + 1)

lemma getD_replicate {α : Type} (c d : α) {n i : ℕ} (h : i < n) :
    (List.replicate n c).getD i d = c := by
  rw [getD_eq_of_lt _ _ (by simpa using h)]
  exact List.getElem_replicate ..

/-- For a series shorter than the window every position is 0, hence every
per-bar pnl is 0. -/
lemma short_series_pnlAt (sqrtQ : ℚ → ℚ) (data : List Bar) (window : ℕ)
    (e x : ℚ) (l : Logic) (s : Side) (hshort : data.length < window) :
    (∀ k < (generateSignals (calculateZScore sqrtQ data window) e x l
        s).length,
      ((generateSignals (calculateZScore sqrtQ data window) e x l s).getD k
        pbDflt).pos = 0) ∧
    (∀ k < (generateSignals (calculateZScore sqrtQ data window) e x l
        s).length,
      pnlAt (generateSignals (calculateZScore sqrtQ data window) e x l s) k
        = 0) := by
  have hz : ∀ k, k < (calculateZScore sqrtQ data window).length →
      ((calculateZScore sqrtQ data window).getD k sbDflt).zscore =
        Option.none := by
    intro k hk
    rw [length_calculateZScore] at hk
    exact zscore_none_of_short sqrtQ data window hshort hk
  have hp := signalPositions_all_zero (calculateZScore sqrtQ data window)
    e x l s hz
  have hpos : ∀ k < (generateSignals (calculateZScore sqrtQ data window)
      e x l s).length,
      ((generateSignals (calculateZScore sqrtQ data window) e x l s).getD k
        pbDflt).pos = 0 := by
    intro k hk
    rw [length_generateSignals] at hk
    rw [generateSignals_getD _ _ _ _ _ hk]
    exact hp k hk
  refine ⟨hpos, ?_⟩
  intro k hk
  unfold pnlAt posPrevAt
  by_cases h0 : k = 0
  · rw [if_pos h0]
    simp
  · rw [if_neg h0]
    rw [hpos (k - 1) (by omega)]
    simp

/-- All output fields of a short-series backtest that the metrics consume. -/
lemma backtest_short_fields (sqrtQ : ℚ → ℚ) (data : List Bar) (window : ℕ)
    (e x : ℚ) (l : Logic) (s : Side) (hshort : data.length < window) :
    (backtest sqrtQ data window e x l s).map SimBar.pnl =
      List.replicate data.length 0 ∧
    (backtest sqrtQ data window e x l s).map SimBar.trades =
      List.replicate data.length 0 ∧
    (backtest sqrtQ data window e x l s).map SimBar.drawdown =
      List.replicate data.length 0 ∧
    (∀ i, i < data.length →
      ((backtest sqrtQ data window e x l s).getD i simDflt).cumulativePnl
        = 0) ∧
    (∀ i, i < data.length →
      ((backtest sqrtQ data window e x l s).getD i simDflt).pos = 0) ∧
    (∀ i, i < data.length →
      ((backtest sqrtQ data window e x l s).getD i simDflt).time =
        (data.getD i barDflt).time) := by
  obtain ⟨hpos, hpnl⟩ := short_series_pnlAt sqrtQ data window e x l s hshort
  have hdfl : (generateSignals (calculateZScore sqrtQ data window) e x l
      s).length = data.length := by
    rw [length_generateSignals, length_calculateZScore]
  have hplrep : (List.range (generateSignals (calculateZScore sqrtQ data
      window) e x l s).length).map
      (pnlAt (generateSignals (calculateZScore sqrtQ data window) e x l s)) =
      List.replicate data.length 0 := by
    rw [← hdfl]
    exact range_map_eq_replicate _ _ hpnl
  have hcums : scanSum 0 ((List.range (generateSignals (calculateZScore sqrtQ
      data window) e x l s).length).map
      (pnlAt (generateSignals (calculateZScore sqrtQ data window) e x l s))) =
      List.replicate data.length 0 := by
    rw [hplrep, scanSum_replicate_zero]
  have hdds : scanDD 0 (scanSum 0 ((List.range (generateSignals
      (calculateZScore sqrtQ data window) e x l s).length).map
      (pnlAt (generateSignals (calculateZScore sqrtQ data window) e x l
        s)))) = List.replicate data.length 0 := by
    rw [hcums, scanDD_replicate_zero]
  refine ⟨?_, ?_, ?_, ?_, ?_, ?_⟩
  · rw [backtest_map_pnl, hplrep]
  · simp only [backtest, List.map_map]
    rw [← hdfl]
    refine range_map_eq_replicate _ _ ?_
    intro k hk
    show |posPrevAt (generateSignals (calculateZScore sqrtQ data window)
      e x l s) k - ((generateSignals (calculateZScore sqrtQ data window)
        e x l s).getD k pbDflt).pos| = 0
    rw [hpos k hk]
    unfold posPrevAt
    by_cases h0 : k = 0
    · rw [if_pos h0]
      decide
    · rw [if_neg h0]
      rw [hpos (k - 1) (by omega)]
      decide
  · simp only [backtest, List.map_map]
    rw [← hdfl]
    refine range_map_eq_replicate _ _ ?_
    intro k hk
    show (scanDD 0 (scanSum 0 ((List.range (generateSignals (calculateZScore
      sqrtQ data window) e x l s).length).map
      (pnlAt (generateSignals (calculateZScore sqrtQ data window) e x l
        s))))).getD k 0 = 0
    rw [hdds]
    exact getD_replicate _ _ (by omega)
  · intro i hi
    rw [backtest_getD sqrtQ data window e x l s hi]
    dsimp only
    rw [hcums]
    exact getD_replicate _ _ hi
  · intro i hi
    rw [backtest_getD sqrtQ data window e x l s hi]
    dsimp only
    exact hpos i (by omega)
  · intro i hi
    rw [backtest_getD sqrtQ data window e x l s hi]
    dsimp only
    have hsc : i < (calculateZScore sqrtQ data window).length := by
      rw [length_calculateZScore]
      exact hi
    rw [generateSignals_getD _ _ _ _ _ hsc]
    dsimp only
    rw [calculateZScore_getD_short sqrtQ data window hi (by omega)]

/-- Claim C2 amended: for a non-empty price series (with the positive closes
of genuine price data) shorter than the window,
the metrics record has Sharpe and Calmar `NaN` and every other numeric field
0 (and the computation is total, so it never crashes) — but, contrary to the
original claim, `Start Date`/`End Date` are the actual first/last bar
timestamps and `Period` is the actual day count, not `"N/A"`/0: the all-zero
pnl column is defined on every bar, so the valid-bar filter is not empty and
the `emptyMetrics` branch is not taken. -/
theorem claim_C2_amended (sqrtQ : ℚ → ℚ) (ann : ℚ) (data : List Bar)
    (window : ℕ) (e x : ℚ) (l : Logic) (s : Side)
    (_hclose : ∀ b ∈ data, 0 < b.close)
    (hne : data ≠ []) (hshort : data.length < window) (hs0 : sqrtQ 0 = 0) :
    (calculateAllMetrics sqrtQ ann (backtest sqrtQ data window e x l s)
      window).sharpe = Option.none ∧
    (calculateAllMetrics sqrtQ ann (backtest sqrtQ data window e x l s)
      window).calmar = Option.none ∧
    (calculateAllMetrics sqrtQ ann (backtest sqrtQ data window e x l s)
      window).maxDrawdown = 0 ∧
    (calculateAllMetrics sqrtQ ann (backtest sqrtQ data window e x l s)
      window).annualizedReturn = 0 ∧
    (calculateAllMetrics sqrtQ ann (backtest sqrtQ data window e x l s)
      window).totalReturn = 0 ∧
    (calculateAllMetrics sqrtQ ann (backtest sqrtQ data window e x l s)
      window).numTrades = 0 ∧
    (calculateAllMetrics sqrtQ ann (backtest sqrtQ data window e x l s)
      window).tradeFrequency = 0 ∧
    (calculateAllMetrics sqrtQ ann (backtest sqrtQ data window e x l s)
      window).winRate = 0 ∧
    (calculateAllMetrics sqrtQ ann (backtest sqrtQ data window e x l s)
      window).startDate = some ((data.getD 0 barDflt).time) ∧
    (calculateAllMetrics sqrtQ ann (backtest sqrtQ data window e x l s)
      window).endDate = some ((data.getD (data.length - 1) barDflt).time) ∧
    (calculateAllMetrics sqrtQ ann (backtest sqrtQ data window e x l s)
      window).periodDays = Int.fdiv ((data.getD (data.length - 1)
        barDflt).time - (data.getD 0 barDflt).time) 86400000 := by
  obtain ⟨hmp, hmt, hmd, hcum, hpos, htime⟩ :=
    backtest_short_fields sqrtQ data window e x l s hshort
  have hn0 : data.length ≠ 0 := fun h => hne (List.length_eq_zero.mp h)
  have hlen0 : 0 < data.length := Nat.pos_of_ne_zero hn0
  have hblen : (backtest sqrtQ data window e x l s).length = data.length :=
    length_backtest sqrtQ data window e x l s
  have hmemz : ∀ b ∈ backtest sqrtQ data window e x l s, b.pos = 0 := by
    intro b hb
    obtain ⟨k, hk, hbk⟩ := List.mem_iff_getElem.mp hb
    have hk2 : k < data.length := by omega
    rw [← hbk, ← getD_eq_of_lt _ simDflt hk]
    exact hpos k hk2
  simp only [calculateAllMetrics]
  rw [if_neg (by rw [hblen]; exact hn0)]
  dsimp only
  refine ⟨?_, ?_, ?_, ?_, ?_, ?_, ?_, ?_, ?_, ?_, ?_⟩
  · simp [hmp, hs0, List.sum_replicate, List.map_replicate]
  · simp [hmd, listMin_replicate_zero]
  · simp [hmd, listMin_replicate_zero, round4]
  · simp [hmp, round4, List.sum_replicate]
  · rw [hblen, hcum (data.length - 1) (by omega)]
    simp [round4]
  · rw [hmt]
    simp
  · rw [hblen]
    rw [if_neg (by omega)]
    simp [round4]
  · unfold calculateWinRate
    rw [tradeEndsAux_nil_of_zero _ hmemz 0]
    simp [round2]
  · rw [htime 0 hlen0]
  · rw [hblen, htime (data.length - 1) (by omega)]
  · rw [hblen, htime (data.length - 1) (by omega), htime 0 hlen0]

/-- Counterexample to claim C2: a two-bar series (one day apart) with
window 3 yields a metrics record whose `Start Date` is the first bar's
timestamp and whose `Period` is 1 day, so the result is not the defined
empty-metrics record. -/
theorem claim_C2_counterexample :
    (calculateAllMetrics (fun q => q) 8760
      (backtest (fun q => q) [⟨0, 100⟩, ⟨86400000, 102⟩] 3 1 (-1)
        Logic.trend Side.long) 3).startDate = some 0 ∧
    (calculateAllMetrics (fun q => q) 8760
      (backtest (fun q => q) [⟨0, 100⟩, ⟨86400000, 102⟩] 3 1 (-1)
        Logic.trend Side.long) 3).periodDays = 1 ∧
    (calculateAllMetrics (fun q => q) 8760
      (backtest (fun q => q) [⟨0, 100⟩, ⟨86400000, 102⟩] 3 1 (-1)
        Logic.trend Side.long) 3) ≠ emptyMetrics := by
  norm_num [calculateAllMetrics, backtest, generateSignals, calculateZScore,
    signalPositions, rawSignals, rawPos, ffill, pnlAt, posPrevAt,
    priceChangeAt, scanSum, scanDD, listMin, calculateWinRate, tradeEndsAux,
    runStart, round4, round2, emptyMetrics, List.range_succ, Int.fdiv]

/-- Witness for the amended C2 on the concrete two-bar series. -/
theorem claim_C2_witness :
    (calculateAllMetrics (fun q => q) 8760
      (backtest (fun q => q) [⟨0, 100⟩, ⟨86400000, 102⟩] 3 1 (-1)
        Logic.trend Side.long) 3).sharpe = Option.none ∧
    (calculateAllMetrics (fun q => q) 8760
      (backtest (fun q => q) [⟨0, 100⟩, ⟨86400000, 102⟩] 3 1 (-1)
        Logic.trend Side.long) 3).calmar = Option.none ∧
    (calculateAllMetrics (fun q => q) 8760
      (backtest (fun q => q) [⟨0, 100⟩, ⟨86400000, 102⟩] 3 1 (-1)
        Logic.trend Side.long) 3).maxDrawdown = 0 ∧
    (calculateAllMetrics (fun q => q) 8760
      (backtest (fun q => q) [⟨0, 100⟩, ⟨86400000, 102⟩] 3 1 (-1)
        Logic.trend Side.long) 3).annualizedReturn = 0 ∧
    (calculateAllMetrics (fun q => q) 8760
      (backtest (fun q => q) [⟨0, 100⟩, ⟨86400000, 102⟩] 3 1 (-1)
        Logic.trend Side.long) 3).totalReturn = 0 ∧
    (calculateAllMetrics (fun q => q) 8760
      (backtest (fun q => q) [⟨0, 100⟩, ⟨86400000, 102⟩] 3 1 (-1)
        Logic.trend Side.long) 3).numTrades = 0 ∧
    (calculateAllMetrics (fun q => q) 8760
      (backtest (fun q => q) [⟨0, 100⟩, ⟨86400000, 102⟩] 3 1 (-1)
        Logic.trend Side.long) 3).tradeFrequency = 0 ∧
    (calculateAllMetrics (fun q => q) 8760
      (backtest (fun q => q) [⟨0, 100⟩, ⟨86400000, 102⟩] 3 1 (-1)
        Logic.trend Side.long) 3).winRate = 0 ∧
    (calculateAllMetrics (fun q => q) 8760
      (backtest (fun q => q) [⟨0, 100⟩, ⟨86400000, 102⟩] 3 1 (-1)
        Logic.trend Side.long) 3).startDate = some 0 ∧
    (calculateAllMetrics (fun q => q) 8760
      (backtest (fun q => q) [⟨0, 100⟩, ⟨86400000, 102⟩] 3 1 (-1)
        Logic.trend Side.long) 3).endDate = some 86400000 ∧
    (calculateAllMetrics (fun q => q) 8760
      (backtest (fun q => q) [⟨0, 100⟩, ⟨86400000, 102⟩] 3 1 (-1)
        Logic.trend Side.long) 3).periodDays =
      Int.fdiv (86400000 - 0) 86400000 :=
  claim_C2_amended (fun q => q) 8760 [⟨0, 100⟩, ⟨86400000, 102⟩] 3 1 (-1)
    Logic.trend Side.long (by norm_num) (by decide) (by decide) rfl

end BtcZscore
